import Mathlib

/-!
Verification of the Asterisk thread-storage core
(`include/asterisk/threadstorage.h`).

The source is a small C header built on pthreads.  We give a shallow
embedding:

* A heap block is a `Buffer`: an identity (its address) plus its byte
  contents.
* The mutable world visible to one thread is a `ProcState`: the
  descriptor's one-time-init flag, this thread's thread-local slot for
  the descriptor's key, the process-wide debug registry, oracles for the
  outcomes of the external allocator and of `pthread_setspecific`, and an
  event log recording every externally visible action in order.
* `struct ast_threadstorage` becomes `AstThreadstorage`.  The C struct's
  mutable fields (`once`, `key`) live in `ProcState`; the static identity
  of the key field (`&ts->key`, the address passed to the debug registry)
  is the `keyId` field, and the cleanup routine registered by
  `key_init` via `pthread_key_create` is the `cleanup` field.

External collaborators (libc/pthreads, the Asterisk allocator, and the
debug-registry implementation in `threadstorage.c`, none of which are in
the sources) are modelled from the spec, as marked on each definition.
-/

namespace Threadstorage

/-- A heap block: its address (`id`) and its byte contents. -/
structure Buffer where
  id : Nat
  bytes : List Nat
deriving DecidableEq, Repr

/-- Externally visible actions, in program order. -/
inductive Event where
  | alloc (size id : Nat)
  | allocFail (size : Nat)
  | customInit (id : Nat) (rc : Int)
  | free (id : Nat)
  | setSpecific (id : Nat) (ok : Bool)
  | objectAdd (key len : Nat)
  | objectRemove (key : Nat)
deriving DecidableEq, Repr

/-- A debug-registry entry: storage-key identity, size and call-site
provenance (spec §3, "Debug Registry Entry"). -/
structure RegEntry where
  keyId : Nat
  len : Nat
  file : String
  func : String
  line : Nat
deriving DecidableEq, Repr

/-- The state a single thread's calls act on: the descriptor's once flag,
this thread's slot, the shared registry, an error counter for the
registry's programming-error reports, the oracles for allocator and
`pthread_setspecific` outcomes, and the event log. -/
structure ProcState where
  onceDone : Bool
  slot : Option Buffer
  registry : List RegEntry
  errors : Nat
  allocOutcomes : List (Option Nat)
  setOutcomes : List Bool
  events : List Event
deriving DecidableEq, Repr

/-- `struct ast_threadstorage` (threadstorage.h lines 56–61).  `keyId` is
the identity of the key field (`&ts->key`); `custom_init` takes the byte
contents and returns the C return code together with the possibly updated
contents; `cleanup` is the destructor registered by `key_init`. -/
structure AstThreadstorage where
  keyId : Nat
  custom_init : Option (List Nat → Int × List Nat)
  cleanup : Buffer → ProcState → ProcState

/-- Modelled from the spec (§4.1): in the sequential, single-thread view
`pthread_once(&ts->once, ts->key_init)` leaves the once flag set; the
key-creation side effect (`pthread_key_create`, registering the cleanup)
is carried statically by the descriptor.  When the flag was already set
the state is unchanged, which the record update also expresses. -/
def pthread_once (st : ProcState) : ProcState :=
  { st with onceDone := true }

/-- `pthread_getspecific(ts->key)`: this thread's current value. -/
def pthread_getspecific (st : ProcState) : Option Buffer :=
  st.slot

/-- Modelled from the spec: `pthread_setspecific(ts->key, buf)` may fail;
the slot is written only on success.  The outcome is drawn from the
oracle (empty oracle = success, the common case). -/
def pthread_setspecific (buf : Buffer) (st : ProcState) : ProcState :=
  let ok := st.setOutcomes.headD true
  { st with
      slot := if ok then some buf else st.slot
      setOutcomes := st.setOutcomes.tail
      events := st.events ++ [Event.setSpecific buf.id ok] }

/-- Modelled from the spec: `ast_calloc(1, size)` — the external
allocator, returning a zero-initialized block of `size` bytes or
failing.  Success/failure and the block's address come from the oracle
(an exhausted oracle refuses the request). -/
def ast_calloc (size : Nat) (st : ProcState) : Option Buffer × ProcState :=
  match st.allocOutcomes with
  | [] =>
      (none, { st with events := st.events ++ [Event.allocFail size] })
  | none :: rest =>
      (none, { st with allocOutcomes := rest,
                       events := st.events ++ [Event.allocFail size] })
  | some a :: rest =>
      (some ⟨a, List.replicate size 0⟩,
       { st with allocOutcomes := rest,
                 events := st.events ++ [Event.alloc size a] })

/-- `free(buf)`: release the block back to the allocator. -/
def free (buf : Buffer) (st : ProcState) : ProcState :=
  { st with events := st.events ++ [Event.free buf.id] }

/-- `ast_free_ptr`: the default cleanup, a plain release of the block. -/
def ast_free_ptr (buf : Buffer) (st : ProcState) : ProcState :=
  free buf st

/-- Modelled from the spec (§4.4): `__ast_threadstorage_object_add`
(declared at threadstorage.h line 70; its body, in `threadstorage.c`, is
not among the sources).  Inserts an entry under `key`; a duplicate key is
a programming error and is reported, not inserted. -/
def __ast_threadstorage_object_add (key len : Nat) (file func : String)
    (line : Nat) (st : ProcState) : ProcState :=
  if st.registry.any (fun e => e.keyId = key) then
    { st with errors := st.errors + 1,
              events := st.events ++ [Event.objectAdd key len] }
  else
    { st with registry := st.registry ++ [⟨key, len, file, func, line⟩],
              events := st.events ++ [Event.objectAdd key len] }

/-- Modelled from the spec (§4.4): `__ast_threadstorage_object_remove`
(declared at threadstorage.h line 71).  Deletes the entry under `key`; an
absent key is a programming error and is reported. -/
def __ast_threadstorage_object_remove (key : Nat) (st : ProcState) :
    ProcState :=
  if st.registry.any (fun e => e.keyId = key) then
    { st with registry := st.registry.filter (fun e => e.keyId ≠ key),
              events := st.events ++ [Event.objectRemove key] }
  else
    { st with errors := st.errors + 1,
              events := st.events ++ [Event.objectRemove key] }

/-- `ast_threadstorage_get` — the non-diagnostic variant (threadstorage.h
lines 167–186). -/
def ast_threadstorage_get (ts : AstThreadstorage) (init_size : Nat)
    (st : ProcState) : Option Buffer × ProcState :=
  let st1 := pthread_once st
  match pthread_getspecific st1 with
  | some buf => (some buf, st1)
  | none =>
    match ast_calloc init_size st1 with
    | (none, st2) => (none, st2)
    | (some buf, st2) =>
      match ts.custom_init with
      | some ci =>
        let r := ci buf.bytes
        let st3 := { st2 with
                       events := st2.events ++ [Event.customInit buf.id r.1] }
        if r.1 ≠ 0 then (none, free buf st3)
        else
          let buf1 : Buffer := ⟨buf.id, r.2⟩
          (some buf1, pthread_setspecific buf1 st3)
      | none => (some buf, pthread_setspecific buf st2)

/-- `__ast_threadstorage_get` — the `DEBUG_THREADLOCALS` variant
(threadstorage.h lines 187–210).  Note that on the success path the
registry insertion is keyed by `&ts->key` (line 202). -/
def __ast_threadstorage_get (ts : AstThreadstorage) (init_size : Nat)
    (file func : String) (line : Nat) (st : ProcState) :
    Option Buffer × ProcState :=
  let st1 := pthread_once st
  match pthread_getspecific st1 with
  | some buf => (some buf, st1)
  | none =>
    match ast_calloc init_size st1 with
    | (none, st2) => (none, st2)
    | (some buf, st2) =>
      match ts.custom_init with
      | some ci =>
        let r := ci buf.bytes
        let st3 := { st2 with
                       events := st2.events ++ [Event.customInit buf.id r.1] }
        if r.1 ≠ 0 then (none, free buf st3)
        else
          let buf1 : Buffer := ⟨buf.id, r.2⟩
          let st4 := pthread_setspecific buf1 st3
          (some buf1,
           __ast_threadstorage_object_add ts.keyId init_size file func line st4)
      | none =>
        let st4 := pthread_setspecific buf st2
        (some buf,
         __ast_threadstorage_object_add ts.keyId init_size file func line st4)

/-- `AST_THREADSTORAGE_CUSTOM(name, c_init, c_cleanup)` (threadstorage.h
lines 106–135): builds the static descriptor; `key_init` registers
`c_cleanup` (wrapped by `__cleanup_##name` in diagnostic builds). -/
def AST_THREADSTORAGE_CUSTOM (keyId : Nat)
    (c_init : Option (List Nat → Int × List Nat))
    (c_cleanup : Buffer → ProcState → ProcState) : AstThreadstorage :=
  { keyId := keyId, custom_init := c_init, cleanup := c_cleanup }

/-- `AST_THREADSTORAGE(name)` (threadstorage.h lines 87–88): no custom
initializer, `ast_free_ptr` as the cleanup. -/
def AST_THREADSTORAGE (keyId : Nat) : AstThreadstorage :=
  AST_THREADSTORAGE_CUSTOM keyId none ast_free_ptr

/-- `__cleanup_##name(data)` (threadstorage.h lines 126–130, diagnostic
builds): remove the registry entry keyed by the buffer pointer `data`,
then call the consumer cleanup. -/
def cleanupDbg (c_cleanup : Buffer → ProcState → ProcState)
    (data : Buffer) (st : ProcState) : ProcState :=
  c_cleanup data (__ast_threadstorage_object_remove data.id st)

/-- Modelled from the spec (§4.3): at thread exit the thread-local
runtime clears the slot and invokes the registered destructor — in
diagnostic builds `__cleanup_##name` — on the old value, if any. -/
def thread_exit_dbg (ts : AstThreadstorage) (st : ProcState) : ProcState :=
  match st.slot with
  | none => st
  | some buf => cleanupDbg ts.cleanup buf { st with slot := none }

/-- Iterate the diagnostic accessor over a list of requested sizes,
collecting each call's result. -/
def runCallsDbg (ts : AstThreadstorage) (file func : String) (line : Nat) :
    List Nat → ProcState → List (Option Buffer) × ProcState
  | [], st => ([], st)
  | s :: rest, st =>
    let r := __ast_threadstorage_get ts s file func line st
    let r2 := runCallsDbg ts file func line rest r.2
    (r.1 :: r2.1, r2.2)

/-! ### Basic lemmas about the accessor -/

theorem pthread_once_slot (st : ProcState) :
    (pthread_once st).slot = st.slot := rfl

theorem get_hit (ts : AstThreadstorage) (s : Nat) (st : ProcState)
    (buf : Buffer) (h : st.slot = some buf) :
    ast_threadstorage_get ts s st = (some buf, pthread_once st) := by
  simp only [ast_threadstorage_get, pthread_getspecific, pthread_once, h]

theorem dbg_get_hit (ts : AstThreadstorage) (s : Nat) (f fn : String)
    (l : Nat) (st : ProcState) (buf : Buffer) (h : st.slot = some buf) :
    __ast_threadstorage_get ts s f fn l st = (some buf, pthread_once st) := by
  simp only [__ast_threadstorage_get, pthread_getspecific, pthread_once, h]

theorem pthread_once_idem (st : ProcState) :
    pthread_once (pthread_once st) = pthread_once st := rfl

/-! ### C1 -/

/-- C1: when the thread's slot already holds a buffer, `ast_threadstorage_get`
returns that buffer unchanged whatever `init_size` is: two calls with
sizes `s1` then `s2` both return the same buffer identity, the slot still
holds it, no allocation happens in between (the allocator oracle and the
event log are untouched), and the second call leaves the state fixed. -/
theorem ts_get_cache_hit_same_buffer (ts : AstThreadstorage)
    (s1 s2 : Nat) (st : ProcState) (buf : Buffer)
    (h : st.slot = some buf) :
    (ast_threadstorage_get ts s1 st).1 = some buf ∧
    (ast_threadstorage_get ts s2 (ast_threadstorage_get ts s1 st).2).1
      = some buf ∧
    ((ast_threadstorage_get ts s1 st).2).slot = some buf ∧
    ((ast_threadstorage_get ts s1 st).2).allocOutcomes = st.allocOutcomes ∧
    ((ast_threadstorage_get ts s1 st).2).events = st.events ∧
    (ast_threadstorage_get ts s2 (ast_threadstorage_get ts s1 st).2).2
      = (ast_threadstorage_get ts s1 st).2 := by
  have h1 := get_hit ts s1 st buf h
  have hs1 : ((ast_threadstorage_get ts s1 st).2).slot = some buf := by
    rw [h1]; exact h
  have h2 := get_hit ts s2 (ast_threadstorage_get ts s1 st).2 buf hs1
  refine ⟨by rw [h1], by rw [h2], hs1, by rw [h1]; rfl, by rw [h1]; rfl, ?_⟩
  rw [h2, h1]
  exact pthread_once_idem st

def bufA : Buffer := ⟨5, [1, 2]⟩

def stA : ProcState :=
  { onceDone := true, slot := some bufA, registry := [], errors := 0,
    allocOutcomes := [some 9], setOutcomes := [], events := [] }

theorem ts_get_cache_hit_same_buffer_witness :
    stA.slot = some bufA ∧
    ((ast_threadstorage_get (AST_THREADSTORAGE 0) 8 stA).1 = some bufA ∧
     (ast_threadstorage_get (AST_THREADSTORAGE 0) 16
        (ast_threadstorage_get (AST_THREADSTORAGE 0) 8 stA).2).1 = some bufA ∧
     ((ast_threadstorage_get (AST_THREADSTORAGE 0) 8 stA).2).slot
        = some bufA ∧
     ((ast_threadstorage_get (AST_THREADSTORAGE 0) 8 stA).2).allocOutcomes
        = stA.allocOutcomes ∧
     ((ast_threadstorage_get (AST_THREADSTORAGE 0) 8 stA).2).events
        = stA.events ∧
     (ast_threadstorage_get (AST_THREADSTORAGE 0) 16
        (ast_threadstorage_get (AST_THREADSTORAGE 0) 8 stA).2).2
        = (ast_threadstorage_get (AST_THREADSTORAGE 0) 8 stA).2) :=
  ⟨rfl, ts_get_cache_hit_same_buffer (AST_THREADSTORAGE 0) 8 16 stA bufA rfl⟩

/-! ### C9 -/

/-- C9: on a cache hit both accessor variants return the cached buffer
(never `none`) and have no side effect: no allocation, no custom init,
no registry insertion, no slot write — every state component other than
the once flag is untouched and the event log grows by nothing. -/
theorem ts_get_cache_hit_frame (ts : AstThreadstorage) (s : Nat)
    (f fn : String) (l : Nat) (st : ProcState) (buf : Buffer)
    (h : st.slot = some buf) :
    (ast_threadstorage_get ts s st).1 = some buf ∧
    (__ast_threadstorage_get ts s f fn l st).1 = some buf ∧
    ((ast_threadstorage_get ts s st).2).slot = st.slot ∧
    ((ast_threadstorage_get ts s st).2).registry = st.registry ∧
    ((ast_threadstorage_get ts s st).2).errors = st.errors ∧
    ((ast_threadstorage_get ts s st).2).allocOutcomes = st.allocOutcomes ∧
    ((ast_threadstorage_get ts s st).2).setOutcomes = st.setOutcomes ∧
    ((ast_threadstorage_get ts s st).2).events = st.events ∧
    ((__ast_threadstorage_get ts s f fn l st).2).slot = st.slot ∧
    ((__ast_threadstorage_get ts s f fn l st).2).registry = st.registry ∧
    ((__ast_threadstorage_get ts s f fn l st).2).errors = st.errors ∧
    ((__ast_threadstorage_get ts s f fn l st).2).allocOutcomes
      = st.allocOutcomes ∧
    ((__ast_threadstorage_get ts s f fn l st).2).setOutcomes
      = st.setOutcomes ∧
    ((__ast_threadstorage_get ts s f fn l st).2).events = st.events := by
  have h1 := get_hit ts s st buf h
  have h2 := dbg_get_hit ts s f fn l st buf h
  refine ⟨by rw [h1], by rw [h2], ?_, ?_, ?_, ?_, ?_, ?_, ?_, ?_, ?_, ?_,
          ?_, ?_⟩ <;> first
    | (rw [h1]; rfl)
    | (rw [h2]; rfl)

theorem ts_get_cache_hit_frame_witness :
    stA.slot = some bufA ∧
    ((ast_threadstorage_get (AST_THREADSTORAGE 0) 8 stA).1 = some bufA ∧
     (__ast_threadstorage_get (AST_THREADSTORAGE 0) 8 "a.c" "fn" 3 stA).1
        = some bufA ∧
     ((ast_threadstorage_get (AST_THREADSTORAGE 0) 8 stA).2).slot
        = stA.slot ∧
     ((ast_threadstorage_get (AST_THREADSTORAGE 0) 8 stA).2).registry
        = stA.registry ∧
     ((ast_threadstorage_get (AST_THREADSTORAGE 0) 8 stA).2).errors
        = stA.errors ∧
     ((ast_threadstorage_get (AST_THREADSTORAGE 0) 8 stA).2).allocOutcomes
        = stA.allocOutcomes ∧
     ((ast_threadstorage_get (AST_THREADSTORAGE 0) 8 stA).2).setOutcomes
        = stA.setOutcomes ∧
     ((ast_threadstorage_get (AST_THREADSTORAGE 0) 8 stA).2).events
        = stA.events ∧
     ((__ast_threadstorage_get (AST_THREADSTORAGE 0) 8 "a.c" "fn" 3 stA).2).slot
        = stA.slot ∧
     ((__ast_threadstorage_get (AST_THREADSTORAGE 0) 8 "a.c" "fn" 3 stA).2).registry
        = stA.registry ∧
     ((__ast_threadstorage_get (AST_THREADSTORAGE 0) 8 "a.c" "fn" 3 stA).2).errors
        = stA.errors ∧
     ((__ast_threadstorage_get (AST_THREADSTORAGE 0) 8 "a.c" "fn" 3 stA).2).allocOutcomes
        = stA.allocOutcomes ∧
     ((__ast_threadstorage_get (AST_THREADSTORAGE 0) 8 "a.c" "fn" 3 stA).2).setOutcomes
        = stA.setOutcomes ∧
     ((__ast_threadstorage_get (AST_THREADSTORAGE 0) 8 "a.c" "fn" 3 stA).2).events
        = stA.events) :=
  ⟨rfl, ts_get_cache_hit_frame (AST_THREADSTORAGE 0) 8 "a.c" "fn" 3 stA bufA rfl⟩

/-! ### C3 -/

/-- C3: on an empty slot the accessor requests a block of `init_size`
bytes from the external allocator; when the allocator returns no block,
both variants return `none` and leave the slot empty and the registry
unchanged — the only visible action is the failed request for
`init_size` bytes. -/
theorem ts_get_alloc_failure_no_registration (ts : AstThreadstorage)
    (s : Nat) (f fn : String) (l : Nat) (st : ProcState)
    (rest : List (Option Nat))
    (hslot : st.slot = none) (halloc : st.allocOutcomes = none :: rest) :
    (ast_threadstorage_get ts s st).1 = none ∧
    ((ast_threadstorage_get ts s st).2).slot = none ∧
    ((ast_threadstorage_get ts s st).2).registry = st.registry ∧
    ((ast_threadstorage_get ts s st).2).errors = st.errors ∧
    ((ast_threadstorage_get ts s st).2).events
      = st.events ++ [Event.allocFail s] ∧
    (__ast_threadstorage_get ts s f fn l st).1 = none ∧
    ((__ast_threadstorage_get ts s f fn l st).2).slot = none ∧
    ((__ast_threadstorage_get ts s f fn l st).2).registry = st.registry ∧
    ((__ast_threadstorage_get ts s f fn l st).2).errors = st.errors ∧
    ((__ast_threadstorage_get ts s f fn l st).2).events
      = st.events ++ [Event.allocFail s] := by
  refine ⟨?_, ?_, ?_, ?_, ?_, ?_, ?_, ?_, ?_, ?_⟩ <;>
    simp only [ast_threadstorage_get, __ast_threadstorage_get,
      pthread_getspecific, pthread_once, ast_calloc, hslot, halloc]

def stB : ProcState :=
  { onceDone := false, slot := none, registry := [], errors := 0,
    allocOutcomes := [none, some 4], setOutcomes := [], events := [] }

theorem ts_get_alloc_failure_no_registration_witness :
    stB.slot = none ∧ stB.allocOutcomes = none :: [some 4] ∧
    ((ast_threadstorage_get (AST_THREADSTORAGE 0) 32 stB).1 = none ∧
     ((ast_threadstorage_get (AST_THREADSTORAGE 0) 32 stB).2).slot = none ∧
     ((ast_threadstorage_get (AST_THREADSTORAGE 0) 32 stB).2).registry
        = stB.registry ∧
     ((ast_threadstorage_get (AST_THREADSTORAGE 0) 32 stB).2).errors
        = stB.errors ∧
     ((ast_threadstorage_get (AST_THREADSTORAGE 0) 32 stB).2).events
        = stB.events ++ [Event.allocFail 32] ∧
     (__ast_threadstorage_get (AST_THREADSTORAGE 0) 32 "a.c" "fn" 3 stB).1
        = none ∧
     ((__ast_threadstorage_get (AST_THREADSTORAGE 0) 32 "a.c" "fn" 3 stB).2).slot
        = none ∧
     ((__ast_threadstorage_get (AST_THREADSTORAGE 0) 32 "a.c" "fn" 3 stB).2).registry
        = stB.registry ∧
     ((__ast_threadstorage_get (AST_THREADSTORAGE 0) 32 "a.c" "fn" 3 stB).2).errors
        = stB.errors ∧
     ((__ast_threadstorage_get (AST_THREADSTORAGE 0) 32 "a.c" "fn" 3 stB).2).events
        = stB.events ++ [Event.allocFail 32]) :=
  ⟨rfl, rfl,
   ts_get_alloc_failure_no_registration (AST_THREADSTORAGE 0) 32 "a.c" "fn" 3
     stB [some 4] rfl rfl⟩

/-! ### C8 -/

/-- C8: a slot declared with plain `AST_THREADSTORAGE` has no custom
initializer and registers `ast_free_ptr` (a plain release) as the
cleanup; on such a slot a first call with size 64 on an empty slot (with
a successful allocation) yields a 64-byte zero-filled buffer, caches it,
and a second call by the same thread returns the identical buffer. -/
theorem ts_plain_macro_behavior (k a : Nat) (arest : List (Option Nat))
    (st : ProcState) (h1 : st.slot = none)
    (h2 : st.allocOutcomes = some a :: arest) (h3 : st.setOutcomes = []) :
    (AST_THREADSTORAGE k).custom_init = none ∧
    (AST_THREADSTORAGE k).cleanup = ast_free_ptr ∧
    (ast_threadstorage_get (AST_THREADSTORAGE k) 64 st).1
      = some ⟨a, List.replicate 64 0⟩ ∧
    ((ast_threadstorage_get (AST_THREADSTORAGE k) 64 st).2).slot
      = some ⟨a, List.replicate 64 0⟩ ∧
    (ast_threadstorage_get (AST_THREADSTORAGE k) 64
       ((ast_threadstorage_get (AST_THREADSTORAGE k) 64 st).2)).1
      = some ⟨a, List.replicate 64 0⟩ := by
  have hres : (ast_threadstorage_get (AST_THREADSTORAGE k) 64 st).1
      = some ⟨a, List.replicate 64 0⟩ := by
    simp only [ast_threadstorage_get, AST_THREADSTORAGE,
      AST_THREADSTORAGE_CUSTOM, pthread_getspecific, pthread_once,
      ast_calloc, pthread_setspecific, h1, h2, h3]
  have hslot : ((ast_threadstorage_get (AST_THREADSTORAGE k) 64 st).2).slot
      = some ⟨a, List.replicate 64 0⟩ := by
    simp only [ast_threadstorage_get, AST_THREADSTORAGE,
      AST_THREADSTORAGE_CUSTOM, pthread_getspecific, pthread_once,
      ast_calloc, pthread_setspecific, h1, h2, h3]
    rfl
  refine ⟨rfl, rfl, hres, hslot, ?_⟩
  rw [get_hit (AST_THREADSTORAGE k) 64 _ ⟨a, List.replicate 64 0⟩ hslot]

theorem ts_plain_macro_behavior_witness :
    stB.slot = none ∧
    ((AST_THREADSTORAGE 7).custom_init = none ∧
     (AST_THREADSTORAGE 7).cleanup = ast_free_ptr ∧
     (ast_threadstorage_get (AST_THREADSTORAGE 7) 64
        { stB with allocOutcomes := [some 4] }).1
        = some ⟨4, List.replicate 64 0⟩ ∧
     ((ast_threadstorage_get (AST_THREADSTORAGE 7) 64
        { stB with allocOutcomes := [some 4] }).2).slot
        = some ⟨4, List.replicate 64 0⟩ ∧
     (ast_threadstorage_get (AST_THREADSTORAGE 7) 64
        ((ast_threadstorage_get (AST_THREADSTORAGE 7) 64
          { stB with allocOutcomes := [some 4] }).2)).1
        = some ⟨4, List.replicate 64 0⟩) :=
  ⟨rfl, ts_plain_macro_behavior 7 4 [] { stB with allocOutcomes := [some 4] }
     rfl rfl rfl⟩

/-! ### C2 -/

/-- C2: on a cache miss with a successful allocation, if the custom
initializer rejects the new block the accessor frees that very block,
returns `none`, and leaves the slot empty and the registry unchanged; a
subsequent call by the same thread therefore runs allocation and custom
initialization again from scratch. -/
theorem ts_get_custom_init_failure_rollback (ts : AstThreadstorage)
    (ci : List Nat → Int × List Nat) (s1 s2 a a2 : Nat)
    (arest : List (Option Nat)) (st : ProcState)
    (hci : ts.custom_init = some ci)
    (hfail : (ci (List.replicate s1 0)).1 ≠ 0)
    (hslot : st.slot = none)
    (halloc : st.allocOutcomes = some a :: some a2 :: arest) :
    (ast_threadstorage_get ts s1 st).1 = none ∧
    ((ast_threadstorage_get ts s1 st).2).slot = none ∧
    ((ast_threadstorage_get ts s1 st).2).registry = st.registry ∧
    ((ast_threadstorage_get ts s1 st).2).events
      = st.events ++ [Event.alloc s1 a,
          Event.customInit a (ci (List.replicate s1 0)).1, Event.free a] ∧
    (∃ tail,
      ((ast_threadstorage_get ts s2 ((ast_threadstorage_get ts s1 st).2)).2).events
        = ((ast_threadstorage_get ts s1 st).2).events
          ++ (Event.alloc s2 a2
              :: Event.customInit a2 (ci (List.replicate s2 0)).1 :: tail)) := by
  have key : ast_threadstorage_get ts s1 st =
      (none, { st with onceDone := true,
                       allocOutcomes := some a2 :: arest,
                       events := st.events ++ [Event.alloc s1 a,
                          Event.customInit a (ci (List.replicate s1 0)).1,
                          Event.free a] }) := by
    simp only [ast_threadstorage_get, pthread_getspecific, pthread_once,
      ast_calloc, free, hci, hslot, halloc]
    rw [if_pos hfail]
    simp
  refine ⟨by rw [key], by rw [key]; exact hslot, by rw [key], by rw [key], ?_⟩
  rw [key]
  by_cases hc : (ci (List.replicate s2 0)).1 = 0
  · refine ⟨[Event.setSpecific a2 ((st.setOutcomes).headD true)], ?_⟩
    simp only [ast_threadstorage_get, pthread_getspecific, pthread_once,
      ast_calloc, pthread_setspecific, free, hci, hslot]
    rw [if_neg (by simp [hc])]
    simp
  · refine ⟨[Event.free a2], ?_⟩
    simp only [ast_threadstorage_get, pthread_getspecific, pthread_once,
      ast_calloc, pthread_setspecific, free, hci, hslot]
    rw [if_pos hc]
    simp

def ciFail : List Nat → Int × List Nat := fun bs => (1, bs)

def stC : ProcState :=
  { onceDone := false, slot := none, registry := [], errors := 0,
    allocOutcomes := [some 7, some 8], setOutcomes := [], events := [] }

def tsFail : AstThreadstorage :=
  AST_THREADSTORAGE_CUSTOM 0 (some ciFail) ast_free_ptr

theorem ts_get_custom_init_failure_rollback_witness :
    tsFail.custom_init = some ciFail ∧
    (ciFail (List.replicate 4 0)).1 ≠ 0 ∧
    ((ast_threadstorage_get tsFail 4 stC).1 = none ∧
     ((ast_threadstorage_get tsFail 4 stC).2).slot = none ∧
     ((ast_threadstorage_get tsFail 4 stC).2).registry = stC.registry ∧
     ((ast_threadstorage_get tsFail 4 stC).2).events
       = stC.events ++ [Event.alloc 4 7,
           Event.customInit 7 (ciFail (List.replicate 4 0)).1, Event.free 7] ∧
     (∃ tail,
       ((ast_threadstorage_get tsFail 6 ((ast_threadstorage_get tsFail 4 stC).2)).2).events
         = ((ast_threadstorage_get tsFail 4 stC).2).events
           ++ (Event.alloc 6 8
               :: Event.customInit 8 (ciFail (List.replicate 6 0)).1 :: tail))) :=
  ⟨rfl, by decide,
   ts_get_custom_init_failure_rollback tsFail ciFail 4 6 7 8 [] stC rfl
     (by decide) rfl rfl⟩

/-! ### C7 -/

theorem dbg_get_fail_step (ts : AstThreadstorage)
    (ci : List Nat → Int × List Nat) (hci : ts.custom_init = some ci)
    (hfail : ∀ bs, (ci bs).1 ≠ 0) (s : Nat) (f fn : String) (l : Nat)
    (st : ProcState) (hslot : st.slot = none) :
    (__ast_threadstorage_get ts s f fn l st).1 = none ∧
    ((__ast_threadstorage_get ts s f fn l st).2).slot = none ∧
    ((__ast_threadstorage_get ts s f fn l st).2).registry = st.registry ∧
    ((__ast_threadstorage_get ts s f fn l st).2).errors = st.errors ∧
    (∃ delta, ((__ast_threadstorage_get ts s f fn l st).2).events
        = st.events ++ delta ∧
      ∀ k len, Event.objectAdd k len ∉ delta) := by
  rcases halloc : st.allocOutcomes with _ | ⟨o, rest⟩
  · have e : __ast_threadstorage_get ts s f fn l st =
        (none, { st with onceDone := true,
                         events := st.events ++ [Event.allocFail s] }) := by
      simp only [__ast_threadstorage_get, pthread_getspecific, pthread_once,
        ast_calloc, hslot, halloc]
    exact ⟨by rw [e], by rw [e]; exact hslot, by rw [e], by rw [e],
      ⟨[Event.allocFail s], by rw [e], by simp⟩⟩
  · rcases o with _ | a
    · have e : __ast_threadstorage_get ts s f fn l st =
          (none, { st with onceDone := true, allocOutcomes := rest,
                           events := st.events ++ [Event.allocFail s] }) := by
        simp only [__ast_threadstorage_get, pthread_getspecific, pthread_once,
          ast_calloc, hslot, halloc]
      exact ⟨by rw [e], by rw [e]; exact hslot, by rw [e], by rw [e],
        ⟨[Event.allocFail s], by rw [e], by simp⟩⟩
    · have hf := hfail (List.replicate s 0)
      have e : __ast_threadstorage_get ts s f fn l st =
          (none, { st with onceDone := true, allocOutcomes := rest,
                           events := st.events ++ [Event.alloc s a,
                              Event.customInit a (ci (List.replicate s 0)).1,
                              Event.free a] }) := by
        simp only [__ast_threadstorage_get, pthread_getspecific, pthread_once,
          ast_calloc, free, hci, hslot, halloc]
        rw [if_pos hf]
        simp
      exact ⟨by rw [e], by rw [e]; exact hslot, by rw [e], by rw [e],
        ⟨[Event.alloc s a, Event.customInit a (ci (List.replicate s 0)).1,
          Event.free a], by rw [e], by simp⟩⟩

/-- C7: for a slot whose custom initializer always fails, every call of
the diagnostic accessor returns failure, the thread's slot stays empty,
the debug registry is unchanged, and no `objectAdd` (registry
insertion) ever happens — insertion would occur only after both
allocation and custom initialization succeeded. -/
theorem ts_get_failing_init_never_registers (ts : AstThreadstorage)
    (ci : List Nat → Int × List Nat) (hci : ts.custom_init = some ci)
    (hfail : ∀ bs, (ci bs).1 ≠ 0) (sizes : List Nat) (f fn : String)
    (l : Nat) (st : ProcState) (hslot : st.slot = none) :
    (∀ r ∈ (runCallsDbg ts f fn l sizes st).1, r = none) ∧
    ((runCallsDbg ts f fn l sizes st).2).slot = none ∧
    ((runCallsDbg ts f fn l sizes st).2).registry = st.registry ∧
    (∃ delta, ((runCallsDbg ts f fn l sizes st).2).events
        = st.events ++ delta ∧
      ∀ k len, Event.objectAdd k len ∉ delta) := by
  induction sizes generalizing st with
  | nil =>
    exact ⟨by simp [runCallsDbg], hslot, rfl, ⟨[], by simp [runCallsDbg], by simp⟩⟩
  | cons s rest ih =>
    obtain ⟨hr, hs, hreg, herr, delta1, hev, hnoadd⟩ :=
      dbg_get_fail_step ts ci hci hfail s f fn l st hslot
    obtain ⟨ihr, ihs, ihreg, delta2, ihev, ihnoadd⟩ :=
      ih ((__ast_threadstorage_get ts s f fn l st).2) hs
    refine ⟨?_, ?_, ?_, ⟨delta1 ++ delta2, ?_, ?_⟩⟩
    · intro r hrmem
      simp only [runCallsDbg, List.mem_cons] at hrmem
      rcases hrmem with h1 | h2
      · rw [h1]; exact hr
      · exact ihr r h2
    · simpa [runCallsDbg] using ihs
    · simp only [runCallsDbg]
      rw [ihreg, hreg]
    · simp only [runCallsDbg]
      rw [ihev, hev, List.append_assoc]
    · intro k len hmem
      rcases List.mem_append.mp hmem with h1 | h2
      · exact hnoadd k len h1
      · exact ihnoadd k len h2

theorem ts_get_failing_init_never_registers_witness :
    tsFail.custom_init = some ciFail ∧
    (∀ bs, (ciFail bs).1 ≠ 0) ∧
    ((∀ r ∈ (runCallsDbg tsFail "a.c" "fn" 3 [4, 8] stC).1, r = none) ∧
     ((runCallsDbg tsFail "a.c" "fn" 3 [4, 8] stC).2).slot = none ∧
     ((runCallsDbg tsFail "a.c" "fn" 3 [4, 8] stC).2).registry
        = stC.registry ∧
     (∃ delta, ((runCallsDbg tsFail "a.c" "fn" 3 [4, 8] stC).2).events
         = stC.events ++ delta ∧
       ∀ k len, Event.objectAdd k len ∉ delta)) :=
  ⟨rfl, fun bs => by simp [ciFail],
   ts_get_failing_init_never_registers tsFail ciFail rfl
     (fun bs => by simp [ciFail]) [4, 8] "a.c" "fn" 3 stC rfl⟩

/-! ### C10 -/

/-- C10: after a cache miss with a successful allocation and a
succeeding (or absent) custom initializer, the accessor returns the new
buffer (whose identity is the allocated address) unconditionally: the
outcome of `pthread_setspecific` is never examined, the returned value
is the same whether registration succeeds or fails, the non-diagnostic
variant agrees, and on a failed registration the slot is in fact not
written — yet the caller still receives the buffer. -/
theorem ts_get_setspecific_unchecked (ts : AstThreadstorage)
    (s a : Nat) (f fn : String) (l : Nat) (st : ProcState)
    (arest : List (Option Nat)) (so : List Bool)
    (hslot : st.slot = none) (halloc : st.allocOutcomes = some a :: arest)
    (hinit : ts.custom_init = none ∨
      ∃ ci, ts.custom_init = some ci ∧ (ci (List.replicate s 0)).1 = 0) :
    (∀ ok : Bool, ∃ b,
      (__ast_threadstorage_get ts s f fn l
          { st with setOutcomes := ok :: so }).1 = some b ∧ b.id = a) ∧
    (∀ ok : Bool,
      (__ast_threadstorage_get ts s f fn l
          { st with setOutcomes := ok :: so }).1
        = (__ast_threadstorage_get ts s f fn l
            { st with setOutcomes := true :: so }).1) ∧
    (∀ ok : Bool,
      (ast_threadstorage_get ts s { st with setOutcomes := ok :: so }).1
        = (__ast_threadstorage_get ts s f fn l
            { st with setOutcomes := ok :: so }).1) ∧
    ((__ast_threadstorage_get ts s f fn l
        { st with setOutcomes := false :: so }).2).slot = st.slot := by
  rcases hinit with hnone | ⟨ci, hci, hok⟩
  · have e : ∀ ok : Bool,
        (__ast_threadstorage_get ts s f fn l
            { st with setOutcomes := ok :: so }).1
          = some ⟨a, List.replicate s 0⟩ ∧
        (ast_threadstorage_get ts s { st with setOutcomes := ok :: so }).1
          = some ⟨a, List.replicate s 0⟩ ∧
        ((__ast_threadstorage_get ts s f fn l
            { st with setOutcomes := ok :: so }).2).slot
          = if ok then some ⟨a, List.replicate s 0⟩ else st.slot := by
      intro ok
      refine ⟨?_, ?_, ?_⟩ <;>
        simp only [ast_threadstorage_get, __ast_threadstorage_get,
          pthread_getspecific, pthread_once, ast_calloc,
          pthread_setspecific, __ast_threadstorage_object_add,
          hnone, hslot, halloc]
      cases ok <;> simp <;> (split <;> rfl)
    refine ⟨fun ok => ⟨⟨a, List.replicate s 0⟩, (e ok).1, rfl⟩,
            fun ok => by rw [(e ok).1, (e true).1],
            fun ok => by rw [(e ok).1, (e ok).2.1],
            ?_⟩
    have := (e false).2.2
    simpa using this
  · have e : ∀ ok : Bool,
        (__ast_threadstorage_get ts s f fn l
            { st with setOutcomes := ok :: so }).1
          = some ⟨a, (ci (List.replicate s 0)).2⟩ ∧
        (ast_threadstorage_get ts s { st with setOutcomes := ok :: so }).1
          = some ⟨a, (ci (List.replicate s 0)).2⟩ ∧
        ((__ast_threadstorage_get ts s f fn l
            { st with setOutcomes := ok :: so }).2).slot
          = if ok then some ⟨a, (ci (List.replicate s 0)).2⟩ else st.slot := by
      intro ok
      refine ⟨?_, ?_, ?_⟩ <;>
        (simp only [ast_threadstorage_get, __ast_threadstorage_get,
           pthread_getspecific, pthread_once, ast_calloc,
           pthread_setspecific, __ast_threadstorage_object_add,
           hci, hslot, halloc]
         rw [if_neg (by simp [hok])])
      cases ok <;> simp <;> (split <;> rfl)
    refine ⟨fun ok => ⟨⟨a, (ci (List.replicate s 0)).2⟩, (e ok).1, rfl⟩,
            fun ok => by rw [(e ok).1, (e true).1],
            fun ok => by rw [(e ok).1, (e ok).2.1],
            ?_⟩
    have := (e false).2.2
    simpa using this

theorem ts_get_setspecific_unchecked_witness :
    stC.slot = none ∧ stC.allocOutcomes = some 7 :: [some 8] ∧
    ((AST_THREADSTORAGE 0).custom_init = none ∨
      ∃ ci, (AST_THREADSTORAGE 0).custom_init = some ci ∧
        (ci (List.replicate 16 0)).1 = 0) ∧
    ((∀ ok : Bool, ∃ b,
       (__ast_threadstorage_get (AST_THREADSTORAGE 0) 16 "a.c" "fn" 3
           { stC with setOutcomes := ok :: [] }).1 = some b ∧ b.id = 7) ∧
     (∀ ok : Bool,
       (__ast_threadstorage_get (AST_THREADSTORAGE 0) 16 "a.c" "fn" 3
           { stC with setOutcomes := ok :: [] }).1
         = (__ast_threadstorage_get (AST_THREADSTORAGE 0) 16 "a.c" "fn" 3
             { stC with setOutcomes := true :: [] }).1) ∧
     (∀ ok : Bool,
       (ast_threadstorage_get (AST_THREADSTORAGE 0) 16
           { stC with setOutcomes := ok :: [] }).1
         = (__ast_threadstorage_get (AST_THREADSTORAGE 0) 16 "a.c" "fn" 3
             { stC with setOutcomes := ok :: [] }).1) ∧
     ((__ast_threadstorage_get (AST_THREADSTORAGE 0) 16 "a.c" "fn" 3
         { stC with setOutcomes := false :: [] }).2).slot = stC.slot) :=
  ⟨rfl, rfl, Or.inl rfl,
   ts_get_setspecific_unchecked (AST_THREADSTORAGE 0) 16 7 "a.c" "fn" 3 stC
     [some 8] [] rfl rfl (Or.inl rfl)⟩

/-! ### C5 — the insertion/removal keys do not match -/

def tsC5 : AstThreadstorage := AST_THREADSTORAGE 1

def stC5 : ProcState :=
  { onceDone := false, slot := none, registry := [], errors := 0,
    allocOutcomes := [some 2], setOutcomes := [], events := [] }

/-- C5: evaluation of the diagnostic accessor followed by the thread's
cleanup, at a slot whose key field lives at address 1 and whose buffer is
allocated at address 2.  The accessor inserts the registry entry keyed by
`&ts->key` (= 1, threadstorage.h line 202), but `__cleanup_##name`
removes keyed by the buffer pointer `data` (= 2, line 128): the removal
misses the entry the insertion created, the stale entry survives the
thread's exit, and the registry reports a missing-entry programming
error.  This contradicts the claim that both are identified by the
storage-key identity of the slot. -/
theorem ts_debug_add_remove_key_mismatch :
    ((__ast_threadstorage_get tsC5 64 "f.c" "fn" 10 stC5).1
       = some ⟨2, List.replicate 64 0⟩) ∧
    (((__ast_threadstorage_get tsC5 64 "f.c" "fn" 10 stC5).2).registry
       = [⟨1, 64, "f.c", "fn", 10⟩]) ∧
    ((thread_exit_dbg tsC5
        (__ast_threadstorage_get tsC5 64 "f.c" "fn" 10 stC5).2).registry
       = [⟨1, 64, "f.c", "fn", 10⟩]) ∧
    ((thread_exit_dbg tsC5
        (__ast_threadstorage_get tsC5 64 "f.c" "fn" 10 stC5).2).errors
       = 1) ∧
    ((thread_exit_dbg tsC5
        (__ast_threadstorage_get tsC5 64 "f.c" "fn" 10 stC5).2).events
       = [Event.alloc 64 2, Event.setSpecific 2 true, Event.objectAdd 1 64,
          Event.objectRemove 2, Event.free 2]) := by
  refine ⟨?_, ?_, ?_, ?_, ?_⟩ <;> rfl

/-! ### C6 -/

/-- C6: in diagnostic builds the thread-exit cleanup deregisters before
it releases: for the default (plain-release) consumer cleanup the
visible actions of `__cleanup_##name` are exactly the registry removal
for the buffer followed by the release of that same buffer, in that
order — at no point is the buffer already released while its removal is
still pending. -/
theorem ts_cleanup_deregister_before_release (data : Buffer)
    (st : ProcState) :
    (cleanupDbg ast_free_ptr data st).events
      = st.events ++ [Event.objectRemove data.id, Event.free data.id] := by
  simp only [cleanupDbg, ast_free_ptr, free,
    __ast_threadstorage_object_remove]
  split <;> simp

/-! ### C4 — one-time key creation under concurrency

`ast_threadstorage_get` begins with `pthread_once(&ts->once, ts->key_init)`
(threadstorage.h line 173/193).  The once primitive itself is external;
its protocol is modelled from the spec (§4.1): a tri-state guard, an
atomic transition `notStarted → inProgress` won by exactly one racer who
runs `key_init` and then publishes `done`; all other racers wait for
`done` before reading the key.  We prove, over every interleaving of
`N` threads, that `key_init` runs exactly once and that every thread
that reads the key does so only after `key_init` has completed, hence
observes a fully initialized key. -/

/-- Modelled from the spec (§4.1): the tri-state once guard. -/
inductive Guard where
  | notStarted
  | inProgress
  | done
deriving DecidableEq, Repr

/-- One thread's position inside the once protocol: `start` (about to
hit the guard), `initing` (won the guard, about to run `key_init`),
`setting` (ran `key_init`, about to publish `done`), `waiting` (lost
the race, blocked until `done`), `afterOnce` (past the guard, about to
read the key), `finished obs` (read the key, observing `obs`). -/
inductive TPhase where
  | start
  | waiting
  | initing
  | setting
  | afterOnce
  | finished (obs : Option Nat)
deriving DecidableEq, Repr

/-- Global state of `n` threads racing through the once protocol for a
single descriptor: the guard, the key (`none` until `key_init` ran),
the number of completed `key_init` runs, and each thread's position. -/
structure OnceState (n : Nat) where
  guard : Guard
  key : Option Nat
  initCount : Nat
  threads : Fin n → TPhase

/-- Modelled from the spec (§4.1): one interleaving step of the once
protocol.  Only the guard transition is atomic; running `key_init` and
publishing `done` are separate steps, and a thread reads whatever the
key currently holds when it passes the guard. -/
inductive OnceStep (n : Nat) : OnceState n → OnceState n → Prop where
  | cas_win (s : OnceState n) (i : Fin n)
      (hp : s.threads i = TPhase.start) (hg : s.guard = Guard.notStarted) :
      OnceStep n s
        { s with guard := Guard.inProgress,
                 threads := Function.update s.threads i TPhase.initing }
  | cas_lose_busy (s : OnceState n) (i : Fin n)
      (hp : s.threads i = TPhase.start) (hg : s.guard = Guard.inProgress) :
      OnceStep n s
        { s with threads := Function.update s.threads i TPhase.waiting }
  | cas_lose_done (s : OnceState n) (i : Fin n)
      (hp : s.threads i = TPhase.start) (hg : s.guard = Guard.done) :
      OnceStep n s
        { s with threads := Function.update s.threads i TPhase.afterOnce }
  | run_key_init (s : OnceState n) (i : Fin n)
      (hp : s.threads i = TPhase.initing) :
      OnceStep n s
        { s with key := some 0, initCount := s.initCount + 1,
                 threads := Function.update s.threads i TPhase.setting }
  | publish_done (s : OnceState n) (i : Fin n)
      (hp : s.threads i = TPhase.setting) :
      OnceStep n s
        { s with guard := Guard.done,
                 threads := Function.update s.threads i TPhase.afterOnce }
  | wake (s : OnceState n) (i : Fin n)
      (hp : s.threads i = TPhase.waiting) (hg : s.guard = Guard.done) :
      OnceStep n s
        { s with threads := Function.update s.threads i TPhase.afterOnce }
  | read_key (s : OnceState n) (i : Fin n)
      (hp : s.threads i = TPhase.afterOnce) :
      OnceStep n s
        { s with threads := Function.update s.threads i (TPhase.finished s.key) }

/-- All `n` threads about to touch a never-before-touched slot. -/
def onceInit (n : Nat) : OnceState n :=
  { guard := Guard.notStarted, key := none, initCount := 0,
    threads := fun _ => TPhase.start }

/-- States reachable by interleaving the threads from the initial state. -/
inductive OnceReachable (n : Nat) : OnceState n → Prop where
  | base : OnceReachable n (onceInit n)
  | step {s t : OnceState n} :
      OnceReachable n s → OnceStep n s t → OnceReachable n t

/-- A thread that has not (yet) passed the guard. -/
def bystander (p : TPhase) : Prop :=
  p = TPhase.start ∨ p = TPhase.waiting

/-- The protocol invariant, by guard value: before any transition
nothing has happened; while in progress there is exactly one winner
(either still initing with count 0 and no key, or done initing with
count 1 and the key set) and everyone else is a bystander; once done,
the count is exactly 1, the key is set, and any thread that has read
the key observed the initialized key. -/
def OnceInv (n : Nat) (s : OnceState n) : Prop :=
  (s.guard = Guard.notStarted →
    s.initCount = 0 ∧ s.key = none ∧ ∀ i, s.threads i = TPhase.start) ∧
  (s.guard = Guard.inProgress →
    ∃ w, ((s.threads w = TPhase.initing ∧ s.initCount = 0 ∧ s.key = none) ∨
          (s.threads w = TPhase.setting ∧ s.initCount = 1 ∧
            s.key = some 0)) ∧
      ∀ j, j ≠ w → bystander (s.threads j)) ∧
  (s.guard = Guard.done →
    s.initCount = 1 ∧ s.key = some 0 ∧
    ∀ i, bystander (s.threads i) ∨ s.threads i = TPhase.afterOnce ∨
         s.threads i = TPhase.finished (some 0))

theorem onceInv_step {n : Nat} {s t : OnceState n}
    (hinv : OnceInv n s) (hstep : OnceStep n s t) : OnceInv n t := by
  obtain ⟨h1, h2, h3⟩ := hinv
  cases hstep with
  | cas_win i hp hg =>
    obtain ⟨hc, hk, hall⟩ := h1 hg
    refine ⟨fun hgt => ?_, fun _ => ?_, fun hgt => ?_⟩
    · exact Guard.noConfusion hgt
    · refine ⟨i, Or.inl ⟨?_, hc, hk⟩, fun j hj => ?_⟩
      · exact Function.update_same i TPhase.initing s.threads
      · dsimp only
        rw [Function.update_noteq hj]
        exact Or.inl (hall j)
    · exact Guard.noConfusion hgt
  | cas_lose_busy i hp hg =>
    obtain ⟨w, hw, hby⟩ := h2 hg
    have hiw : i ≠ w := by
      intro he
      rcases hw with ⟨hw1, _⟩ | ⟨hw1, _⟩ <;> rw [← he, hp] at hw1 <;>
        exact TPhase.noConfusion hw1
    refine ⟨fun hgt => ?_, fun _ => ?_, fun hgt => ?_⟩
    · dsimp only at hgt; rw [hg] at hgt; exact Guard.noConfusion hgt
    · refine ⟨w, ?_, fun j hj => ?_⟩
      · dsimp only
        rw [Function.update_noteq (Ne.symm hiw)]
        exact hw
      · dsimp only
        by_cases hji : j = i
        · subst hji
          rw [Function.update_same]
          exact Or.inr rfl
        · rw [Function.update_noteq hji]
          exact hby j hj
    · dsimp only at hgt; rw [hg] at hgt; exact Guard.noConfusion hgt
  | cas_lose_done i hp hg =>
    obtain ⟨hc, hk, hall⟩ := h3 hg
    refine ⟨fun hgt => ?_, fun hgt => ?_, fun _ => ?_⟩
    · dsimp only at hgt; rw [hg] at hgt; exact Guard.noConfusion hgt
    · dsimp only at hgt; rw [hg] at hgt; exact Guard.noConfusion hgt
    · refine ⟨hc, hk, fun j => ?_⟩
      dsimp only
      by_cases hji : j = i
      · subst hji
        rw [Function.update_same]
        exact Or.inr (Or.inl rfl)
      · rw [Function.update_noteq hji]
        exact hall j
  | run_key_init i hp =>
    cases hg : s.guard with
    | notStarted =>
      obtain ⟨_, _, hall⟩ := h1 hg
      rw [hall i] at hp
      exact TPhase.noConfusion hp
    | done =>
      obtain ⟨_, _, hall⟩ := h3 hg
      rcases hall i with (hb | hb) | hb | hb <;> rw [hb] at hp <;>
        exact TPhase.noConfusion hp
    | inProgress =>
      obtain ⟨w, hw, hby⟩ := h2 hg
      have hiw : i = w := by
        by_contra hne
        rcases hby i hne with hb | hb <;> rw [hb] at hp <;>
          exact TPhase.noConfusion hp
      subst hiw
      have hleft : s.initCount = 0 := by
        rcases hw with ⟨_, hc, _⟩ | ⟨hw1, _⟩
        · exact hc
        · rw [hw1] at hp; exact TPhase.noConfusion hp
      refine ⟨fun hgt => ?_, fun _ => ?_, fun hgt => ?_⟩
      · exact Guard.noConfusion hgt
      · refine ⟨i, Or.inr ⟨?_, ?_, rfl⟩, fun j hj => ?_⟩
        · exact Function.update_same i TPhase.setting s.threads
        · dsimp only
          omega
        · dsimp only
          rw [Function.update_noteq hj]
          exact hby j hj
      · exact Guard.noConfusion hgt
  | publish_done i hp =>
    cases hg : s.guard with
    | notStarted =>
      obtain ⟨_, _, hall⟩ := h1 hg
      rw [hall i] at hp
      exact TPhase.noConfusion hp
    | done =>
      obtain ⟨_, _, hall⟩ := h3 hg
      rcases hall i with (hb | hb) | hb | hb <;> rw [hb] at hp <;>
        exact TPhase.noConfusion hp
    | inProgress =>
      obtain ⟨w, hw, hby⟩ := h2 hg
      have hiw : i = w := by
        by_contra hne
        rcases hby i hne with hb | hb <;> rw [hb] at hp <;>
          exact TPhase.noConfusion hp
      subst hiw
      obtain ⟨hc, hk⟩ : s.initCount = 1 ∧ s.key = some 0 := by
        rcases hw with ⟨hw1, _⟩ | ⟨_, hc, hk⟩
        · rw [hw1] at hp; exact TPhase.noConfusion hp
        · exact ⟨hc, hk⟩
      refine ⟨fun hgt => ?_, fun hgt => ?_, fun _ => ?_⟩
      · exact Guard.noConfusion hgt
      · exact Guard.noConfusion hgt
      · refine ⟨hc, hk, fun j => ?_⟩
        dsimp only
        by_cases hji : j = i
        · subst hji
          rw [Function.update_same]
          exact Or.inr (Or.inl rfl)
        · rw [Function.update_noteq hji]
          exact Or.inl (hby j hji)
  | wake i hp hg =>
    obtain ⟨hc, hk, hall⟩ := h3 hg
    refine ⟨fun hgt => ?_, fun hgt => ?_, fun _ => ?_⟩
    · dsimp only at hgt; rw [hg] at hgt; exact Guard.noConfusion hgt
    · dsimp only at hgt; rw [hg] at hgt; exact Guard.noConfusion hgt
    · refine ⟨hc, hk, fun j => ?_⟩
      dsimp only
      by_cases hji : j = i
      · subst hji
        rw [Function.update_same]
        exact Or.inr (Or.inl rfl)
      · rw [Function.update_noteq hji]
        exact hall j
  | read_key i hp =>
    cases hg : s.guard with
    | notStarted =>
      obtain ⟨_, _, hall⟩ := h1 hg
      rw [hall i] at hp
      exact TPhase.noConfusion hp
    | inProgress =>
      obtain ⟨w, hw, hby⟩ := h2 hg
      by_cases hiw : i = w
      · subst hiw
        rcases hw with ⟨hw1, _⟩ | ⟨hw1, _⟩ <;> rw [hw1] at hp <;>
          exact TPhase.noConfusion hp
      · rcases hby i hiw with hb | hb <;> rw [hb] at hp <;>
          exact TPhase.noConfusion hp
    | done =>
      obtain ⟨hc, hk, hall⟩ := h3 hg
      refine ⟨fun hgt => ?_, fun hgt => ?_, fun _ => ?_⟩
      · exact Guard.noConfusion hgt
      · exact Guard.noConfusion hgt
      · refine ⟨hc, hk, fun j => ?_⟩
        dsimp only
        by_cases hji : j = i
        · subst hji
          rw [Function.update_same, hk]
          exact Or.inr (Or.inr rfl)
        · rw [Function.update_noteq hji]
          exact hall j

theorem onceInv_reachable {n : Nat} {s : OnceState n}
    (h : OnceReachable n s) : OnceInv n s := by
  induction h with
  | base =>
    refine ⟨fun _ => ⟨rfl, rfl, fun _ => rfl⟩, fun hg => ?_, fun hg => ?_⟩
    · exact Guard.noConfusion hg
    · exact Guard.noConfusion hg
  | step hr hst ih => exact onceInv_step ih hst

/-- C4: in every interleaving of `n` threads racing through the once
protocol on a never-before-touched descriptor, `key_init` runs at most
once overall and exactly once by the time the guard is `done`; and any
thread that has read the key did so after `key_init` completed
(`initCount = 1` at its read) and observed the fully initialized key. -/
theorem ts_once_key_init_exactly_once {n : Nat} {s : OnceState n}
    (h : OnceReachable n s) :
    s.initCount ≤ 1 ∧
    (s.guard = Guard.done → s.initCount = 1 ∧ s.key = some 0) ∧
    (∀ i k, s.threads i = TPhase.finished k →
      s.initCount = 1 ∧ k = some 0) := by
  obtain ⟨h1, h2, h3⟩ := onceInv_reachable h
  cases hg : s.guard with
  | notStarted =>
    obtain ⟨hc, hk, hall⟩ := h1 hg
    refine ⟨by omega, fun hd => ?_, fun i k hf => ?_⟩
    · exact Guard.noConfusion hd
    · rw [hall i] at hf; exact TPhase.noConfusion hf
  | inProgress =>
    obtain ⟨w, hw, hby⟩ := h2 hg
    refine ⟨?_, fun hd => ?_, fun i k hf => ?_⟩
    · rcases hw with ⟨_, hc, _⟩ | ⟨_, hc, _⟩ <;> omega
    · exact Guard.noConfusion hd
    · by_cases hiw : i = w
      · subst hiw
        rcases hw with ⟨hw1, _⟩ | ⟨hw1, _⟩ <;> rw [hw1] at hf <;>
          exact TPhase.noConfusion hf
      · rcases hby i hiw with hb | hb <;> rw [hb] at hf <;>
          exact TPhase.noConfusion hf
  | done =>
    obtain ⟨hc, hk, hall⟩ := h3 hg
    refine ⟨by omega, fun _ => ⟨hc, hk⟩, fun i k hf => ?_⟩
    rcases hall i with (hb | hb) | hb | hb <;> rw [hb] at hf
    · exact TPhase.noConfusion hf
    · exact TPhase.noConfusion hf
    · exact TPhase.noConfusion hf
    · refine ⟨hc, ?_⟩
      injection hf with hobs
      exact hobs.symm

def onceS1 : OnceState 1 :=
  { onceInit 1 with
      guard := Guard.inProgress,
      threads := Function.update (onceInit 1).threads 0 TPhase.initing }

def onceS2 : OnceState 1 :=
  { onceS1 with
      key := some 0,
      initCount := onceS1.initCount + 1,
      threads := Function.update onceS1.threads 0 TPhase.setting }

def onceS3 : OnceState 1 :=
  { onceS2 with
      guard := Guard.done,
      threads := Function.update onceS2.threads 0 TPhase.afterOnce }

def onceS4 : OnceState 1 :=
  { onceS3 with
      threads := Function.update onceS3.threads 0 (TPhase.finished onceS3.key) }

theorem ts_once_key_init_exactly_once_witness :
    onceS4.initCount ≤ 1 ∧
    (onceS4.guard = Guard.done → onceS4.initCount = 1 ∧ onceS4.key = some 0) ∧
    (∀ i k, onceS4.threads i = TPhase.finished k →
      onceS4.initCount = 1 ∧ k = some 0) :=
  ts_once_key_init_exactly_once
    (OnceReachable.step
      (OnceReachable.step
        (OnceReachable.step
          (OnceReachable.step OnceReachable.base
            (OnceStep.cas_win (onceInit 1) 0 rfl rfl))
          (OnceStep.run_key_init onceS1 0 (by decide)))
        (OnceStep.publish_done onceS2 0 (by decide)))
      (OnceStep.read_key onceS3 0 (by decide)))

end Threadstorage
